import Mathlib

/-!
Verification of the zoom-attendance-mvp service (src/main.py) against its
natural-language specification.

Shallow embedding notes:

* Instants are modelled as `Int` microseconds since the POSIX epoch, UTC.
  Python `datetime` objects carry microsecond resolution; after
  normalisation to UTC an instant is exactly its epoch-microsecond count.
* The persisted store (tables `sessions`, `users`, `attendance_segments`)
  is a `DBState`.  `attendance_segments.id` is the serial primary key,
  modelled by `nextId`; rows are kept in insertion (id-ascending) order.
* The webhook handler `zoom_webhook` (src/main.py lines 89-186) is split
  the way the code is: entity upsert (`ensure_entities`), the join insert,
  and the leave select/update.  The SQL
  `SELECT ... WHERE ... leave_time IS NULL ORDER BY join_time DESC LIMIT 1`
  guarantees only that the returned row is an open row of maximal
  `join_time` for the pair; rows tied on `join_time` may come back in any
  order (no secondary sort key appears in the query).  The relation
  `LeaveSelects` captures exactly this guarantee; the executable
  `applyEvent` instantiates it with one allowed choice (first such row in
  storage order).
* Python `int((ts - join).total_seconds())` truncates toward zero, which
  is `Int.tdiv` on the microsecond difference.
-/

namespace ZoomAttendance

/-- One row of the `attendance_segments` table. -/
structure Segment where
  id : Nat
  session_id : String
  user_id : String
  join_time : Int
  leave_time : Option Int
  duration_sec : Option Int
deriving Repr, DecidableEq

/-- The persisted store: `sessions`, `users`, `attendance_segments`
plus the serial id counter for segments. -/
structure DBState where
  sessions : List String
  users : List String
  segments : List Segment
  nextId : Nat
deriving Repr, DecidableEq

/-- The empty database. -/
def initState : DBState := ⟨[], [], [], 1⟩

/-- Kind of a canonical attendance event. -/
inductive EventKind where
  | join
  | leave
deriving Repr, DecidableEq

/-- The canonical `AttendanceEvent {session_id, user_id, kind, at}` built by
the event normaliser; `at` is epoch microseconds UTC. -/
structure AttendanceEvent where
  session_id : String
  user_id : String
  kind : EventKind
  atTime : Int
deriving Repr, DecidableEq

/-- Outcome of one tracker application, mirroring the JSON `action` field of
the webhook response. -/
inductive Outcome where
  | segmentOpened
  | segmentClosed (duration_sec : Int)
  | noOpenSegment
deriving Repr, DecidableEq

/-- Model of `ensure_entities` (main.py lines 84-86): idempotent insert of the
session and user rows. -/
def ensure_entities (db : DBState) (sid uid : String) : DBState :=
  { db with
    sessions := if sid ∈ db.sessions then db.sessions else db.sessions ++ [sid]
    users := if uid ∈ db.users then db.users else db.users ++ [uid] }

/-- The `WHERE session_id = $1 AND user_id = $2 AND leave_time IS NULL`
predicate of the leave-path SELECT. -/
def isOpenFor (sid uid : String) (s : Segment) : Bool :=
  s.session_id = sid && s.user_id = uid && s.leave_time = none

/-- All open rows for a pair, in storage order. -/
def openSegs (db : DBState) (sid uid : String) : List Segment :=
  db.segments.filter (isOpenFor sid uid)

/-- What `ORDER BY join_time DESC LIMIT 1` guarantees about the fetched row:
it is an open row for the pair whose `join_time` is maximal among such rows.
Ties on `join_time` are not further ordered by the query. -/
def LeaveSelects (db : DBState) (sid uid : String) (s : Segment) : Prop :=
  s ∈ db.segments ∧ isOpenFor sid uid s = true ∧
    ∀ t ∈ db.segments, isOpenFor sid uid t = true → t.join_time ≤ s.join_time

/-- One fold step of the executable select: keep the row whose `join_time`
is strictly larger, the earlier row on a tie. -/
def selBetter (acc : Option Segment) (s : Segment) : Option Segment :=
  match acc with
  | none => some s
  | some b => if b.join_time < s.join_time then some s else acc

/-- Executable instance of the select: the first open row in storage order
whose `join_time` is maximal (one behaviour the unordered tie permits). -/
def selectOpen (segs : List Segment) : Option Segment :=
  segs.foldl selBetter none

/-- Model of `int((ts - join_time).total_seconds())`: the microsecond difference in
whole seconds, truncated toward zero (Python `int(...)` truncates). -/
def durationSecOf (ts join : Int) : Int :=
  Int.tdiv (ts - join) 1000000

/-- The `UPDATE attendance_segments SET leave_time=$1, duration_sec=$2
WHERE id=$3` applied to one row. -/
def closeRow (ts dur : Int) (targetId : Nat) (s : Segment) : Segment :=
  if s.id = targetId then { s with leave_time := some ts, duration_sec := some dur } else s

/-- The whole webhook transaction for one canonical event
(main.py lines 147-186): upsert entities, then insert an open segment on
join, or select-and-close on leave. -/
def applyEvent (db : DBState) (e : AttendanceEvent) : DBState × Outcome :=
  let db := ensure_entities db e.session_id e.user_id
  match e.kind with
  | .join =>
      ({ db with
          segments := db.segments ++
            [⟨db.nextId, e.session_id, e.user_id, e.atTime, none, none⟩]
          nextId := db.nextId + 1 },
       Outcome.segmentOpened)
  | .leave =>
      match selectOpen (openSegs db e.session_id e.user_id) with
      | none => (db, Outcome.noOpenSegment)
      | some row =>
          let dur := durationSecOf e.atTime row.join_time
          ({ db with segments := db.segments.map (closeRow e.atTime dur row.id) },
           Outcome.segmentClosed dur)

/-- Fold a list of canonical events through the tracker. -/
def applyEvents (db : DBState) (es : List AttendanceEvent) : DBState :=
  es.foldl (fun d e => (applyEvent d e).1) db

/-- The open-segment invariant of the spec: at most one open segment per
`(session_id, user_id)` pair. -/
def OpenInvariant (db : DBState) : Prop :=
  ∀ sid uid, (openSegs db sid uid).length ≤ 1

/-- Guardedness of an event trace: every join event arrives while its pair
has no open segment (decidable, evaluated along the fold). -/
def guardedJoins : DBState → List AttendanceEvent → Bool
  | _, [] => true
  | db, e :: rest =>
    (match e.kind with
     | .join => (openSegs db e.session_id e.user_id).length == 0
     | .leave => true)
    && guardedJoins (applyEvent db e).1 rest

/-! ## Timestamp Normalizer (main.py lines 24-30 and 127-135)

`parse_iso_timestamp` is modelled over the grammar that
`datetime.fromisoformat` accepts for the shapes this service meets:
`YYYY-MM-DD`, optionally followed by `T HH:MM:SS`, an optional fractional
part of three or six digits, and an optional `+HH:MM` / `-HH:MM` offset.
Field ranges are validated as the `datetime` constructor does (year
1-9999, month 1-12, day within the month, hour ≤ 23, minute/second ≤ 59);
an offset is accepted whenever its absolute value is below 24 hours,
mirroring `datetime.timezone`'s own check. -/

/-- Value of one ASCII digit. -/
def digitVal (c : Char) : Option Nat :=
  if c.isDigit then some (c.toNat - 48) else none

/-- Two-digit field. -/
def num2 (a b : Char) : Option Nat := do
  let x ← digitVal a
  let y ← digitVal b
  pure (10 * x + y)

/-- Four-digit field. -/
def num4 (a b c d : Char) : Option Nat := do
  let x ← digitVal a
  let y ← digitVal b
  let z ← digitVal c
  let w ← digitVal d
  pure (1000 * x + 100 * y + 10 * z + w)

/-- Gregorian leap-year rule, as Python's `calendar.isleap`. -/
def isLeap (y : Nat) : Bool :=
  (y % 4 == 0 && y % 100 != 0) || y % 400 == 0

/-- Length of a month, as the `datetime` constructor validates days. -/
def daysInMonth (y m : Nat) : Nat :=
  if m = 2 then (if isLeap y then 29 else 28)
  else if m = 4 ∨ m = 6 ∨ m = 9 ∨ m = 11 then 30
  else 31

/-- The `datetime` constructor's date validation. -/
def validDate (y m d : Nat) : Bool :=
  1 ≤ y && 1 ≤ m && m ≤ 12 && 1 ≤ d && d ≤ daysInMonth y m

/-- The `datetime` constructor's time validation. -/
def validTime (h mi s : Nat) : Bool :=
  h ≤ 23 && mi ≤ 59 && s ≤ 59

/-- Parse a leading `YYYY-MM-DD`, returning the remaining characters. -/
def parseDateChars : List Char → Option (Nat × Nat × Nat × List Char)
  | y1 :: y2 :: y3 :: y4 :: '-' :: m1 :: m2 :: '-' :: d1 :: d2 :: rest => do
      let y ← num4 y1 y2 y3 y4
      let m ← num2 m1 m2
      let d ← num2 d1 d2
      pure (y, m, d, rest)
  | _ => none

/-- Fractional-second digits after the dot: exactly three or six digits,
yielding microseconds. -/
def parseFracDigits : List Char → Option (Nat × List Char)
  | a :: b :: c :: rest =>
      match digitVal a, digitVal b, digitVal c with
      | some x, some y, some z =>
          let v3 := 100 * x + 10 * y + z
          match rest with
          | d :: e :: f :: rest2 =>
              match digitVal d, digitVal e, digitVal f with
              | some u, some v, some w =>
                  some (v3 * 1000 + 100 * u + 10 * v + w, rest2)
              | _, _, _ => some (v3 * 1000, rest)
          | _ => some (v3 * 1000, rest)
      | _, _, _ => none
  | _ => none

/-- Parse `HH:MM:SS` with optional `.fff` / `.ffffff`. -/
def parseTimeChars : List Char → Option (Nat × Nat × Nat × Nat × List Char)
  | h1 :: h2 :: ':' :: m1 :: m2 :: ':' :: s1 :: s2 :: rest => do
      let h ← num2 h1 h2
      let mi ← num2 m1 m2
      let sec ← num2 s1 s2
      match rest with
      | '.' :: frac =>
          match parseFracDigits frac with
          | some (us, rest2) => some (h, mi, sec, us, rest2)
          | none => none
      | _ => some (h, mi, sec, 0, rest)
  | _ => none

/-- Parse an optional trailing UTC offset `±HH:MM` into minutes; `none`
inside `some` means a naive datetime (no tzinfo).  The `< 24h` bound is
the check `datetime.timezone` itself performs. -/
def parseOffsetChars : List Char → Option (Option Int)
  | [] => some none
  | '+' :: h1 :: h2 :: ':' :: m1 :: m2 :: [] => do
      let oh ← num2 h1 h2
      let om ← num2 m1 m2
      if oh * 60 + om < 1440 then pure (some ((oh * 60 + om : Nat) : Int)) else none
  | '-' :: h1 :: h2 :: ':' :: m1 :: m2 :: [] => do
      let oh ← num2 h1 h2
      let om ← num2 m1 m2
      if oh * 60 + om < 1440 then pure (some (-((oh * 60 + om : Nat) : Int))) else none
  | _ => none

/-- A parsed Python `datetime`: calendar fields plus the tz offset in
minutes (`none` = naive). -/
structure PyDatetime where
  year : Nat
  month : Nat
  day : Nat
  hour : Nat
  minute : Nat
  second : Nat
  usecond : Nat
  offsetMinutes : Option Int
deriving Repr, DecidableEq

/-- Model of `datetime.fromisoformat` on the grammar described above. -/
def fromisoformat (str : String) : Option PyDatetime :=
  match parseDateChars str.data with
  | none => none
  | some (y, m, d, rest) =>
      if validDate y m d then
        match rest with
        | [] => some ⟨y, m, d, 0, 0, 0, 0, none⟩
        | 'T' :: trest =>
            match parseTimeChars trest with
            | none => none
            | some (h, mi, sec, us, rest2) =>
                if validTime h mi sec then
                  match parseOffsetChars rest2 with
                  | none => none
                  | some off => some ⟨y, m, d, h, mi, sec, us, off⟩
                else none
        | _ => none
      else none

/-- Days between a Gregorian civil date and 1970-01-01 (Hinnant's
days-from-civil algorithm, floor divisions throughout). -/
def daysFromCivil (y m d : Int) : Int :=
  let y2 := if m ≤ 2 then y - 1 else y
  let era := Int.fdiv y2 400
  let yoe := y2 - era * 400
  let mp := Int.emod (m + 9) 12
  let doy := Int.fdiv (153 * mp + 2) 5 + d - 1
  let doe := yoe * 365 + Int.fdiv yoe 4 - Int.fdiv yoe 100 + doy
  era * 146097 + doe - 719468

/-- Epoch microseconds of the naive calendar fields of a `PyDatetime`
(before applying any offset). -/
def toEpochMicros (dt : PyDatetime) : Int :=
  ((daysFromCivil dt.year dt.month dt.day) * 86400
      + (dt.hour : Int) * 3600 + (dt.minute : Int) * 60 + (dt.second : Int)) * 1000000
    + (dt.usecond : Int)

/-- Error cases of the strict timestamp path: `ValueError` from
`fromisoformat`, or the handler's own
`ValueError("timestamp must include timezone information")`. -/
inductive TsError where
  | invalidFormat
  | noTimezone
deriving Repr, DecidableEq

/-- Model of `value.replace("Z", "+00:00")` (main.py line 26): every `Z` becomes
`+00:00`. -/
def replaceZ (s : String) : String :=
  String.mk (s.data.foldr
    (fun c acc =>
      if c = 'Z' then '+' :: '0' :: '0' :: ':' :: '0' :: '0' :: acc else c :: acc)
    [])

/-- Model of `parse_iso_timestamp` (main.py lines 24-30): replace `Z`, parse, reject
naive datetimes, convert to UTC.  `astimezone(timezone.utc)` keeps the
instant, so the result is the naive epoch minus the offset. -/
def parse_iso_timestamp (s : String) : Except TsError Int :=
  match fromisoformat (replaceZ s) with
  | none => .error .invalidFormat
  | some dt =>
      match dt.offsetMinutes with
      | none => .error .noTimezone
      | some off => .ok (toEpochMicros dt - off * 60000000)

/-- A value reaching the webhook path's `to_dt` helper: `None`, a number
(epoch milliseconds, modelled integral), a string, or any other JSON
value. -/
inductive PyTsValue where
  | pyNone
  | pyNum (ms : Int)
  | pyStr (s : String)
  | pyOther
deriving Repr, DecidableEq

/-- Model of `to_dt` (main.py lines 127-135).  `now` is the current wall-clock
instant.  `datetime.fromtimestamp(v / 1000, tz=utc)` on an integral
millisecond count is exactly `ms * 1000` microseconds.  A string is parsed
by `parse_iso_timestamp`, whose `ValueError` propagates (only
non-conforming *types* fall back to `now`). -/
def to_dt (now : Int) (v : PyTsValue) : Except TsError Int :=
  match v with
  | .pyNone => .ok now
  | .pyNum ms => .ok (ms * 1000)
  | .pyStr s => parse_iso_timestamp s
  | .pyOther => .ok now

/-! ## Event Normalizer (main.py lines 113-124) -/

/-- The `participant` object of the payload.  `pid` models the payload key
named `id`.  Values are modelled as strings; a missing key is `none` and
Python truthiness makes the empty string falsy. -/
structure Participant where
  email : Option String
  user_id : Option String
  pid : Option String
deriving Repr, DecidableEq

/-- Python `a or b` where `a` is a string-or-None lookup: falls through on
`None` and on the empty string. -/
def pyOrStr (a : Option String) (b : String) : String :=
  match a with
  | none => b
  | some s => if s = "" then b else s

/-- Model of `participant.get("email") or participant.get("user_id") or
participant.get("id") or "unknown"` (main.py lines 119-124). -/
def extract_user_id (p : Participant) : String :=
  pyOrStr p.email (pyOrStr p.user_id (pyOrStr p.pid "unknown"))

/-- Spec-side restatement for C8: the first non-empty value among email,
user_id, id, else the literal "unknown". -/
def specUserId (p : Participant) : String :=
  ((([p.email, p.user_id, p.pid].filterMap id).filter (fun s => s ≠ "")).head?).getD "unknown"

/-- The `object` of the payload: `uuid` (string) and `id` (numeric meeting
id, modelled as the payload key named `id`). -/
structure ZoomObject where
  uuid : Option String
  meetingId : Option Int
deriving Repr, DecidableEq

/-- Python `str` applied to the result of `.get("id")`: `str(None)` is the
literal string `"None"`. -/
def pyStrOfOptInt : Option Int → String
  | none => "None"
  | some n => toString n

/-- Model of `obj.get("uuid") or str(obj.get("id"))` (main.py line 116). -/
def extract_session_id (o : ZoomObject) : String :=
  pyOrStr o.uuid (pyStrOfOptInt o.meetingId)

/-- Normalising and processing one `meeting.participant_joined` or
`meeting.participant_left` payload (`kind` is the event_type the filter at
main.py line 137-142 derives): build the canonical event from the
extracted fields and run the tracker transaction. -/
def process_payload (db : DBState) (kind : EventKind) (o : ZoomObject) (p : Participant)
    (ts : Int) : DBState × Outcome :=
  applyEvent db ⟨extract_session_id o, extract_user_id p, kind, ts⟩

/-! ## Aggregation Views: daily summary (main.py lines 300-338) -/

/-- Model of `date.fromisoformat` on the strict `YYYY-MM-DD` shape. -/
def date_fromisoformat (s : String) : Option (Nat × Nat × Nat) :=
  match parseDateChars s.data with
  | some (y, m, d, []) => if validDate y m d then some (y, m, d) else none
  | _ => none

/-- Model of `datetime(d.year, d.month, d.day, 0, 0, 0, tzinfo=utc)` in epoch
microseconds. -/
def dayStartMicros (y m d : Nat) : Int :=
  daysFromCivil y m d * 86400000000

/-- The row filter of the daily-summary query:
`join_time >= start AND join_time <= end AND leave_time IS NOT NULL`,
where `end = start.replace(hour=23, minute=59, second=59)`. -/
def dailySegmentFilter (y m d : Nat) (s : Segment) : Bool :=
  decide (dayStartMicros y m d ≤ s.join_time)
    && decide (s.join_time ≤ dayStartMicros y m d + 86399000000)
    && s.leave_time ≠ none

/-- The segments the `/daily/{day}/summary` query aggregates; `none` is
the 400 response for a malformed day parameter. -/
def daily_summary_rows (db : DBState) (day : String) : Option (List Segment) :=
  match date_fromisoformat day with
  | none => none
  | some (y, m, d) => some (db.segments.filter (dailySegmentFilter y m d))

/-! ## Concrete example states used by counterexamples and witnesses -/

/-- A join event for the pair `("S", "U")` at instant 0. -/
def evJoinSU : AttendanceEvent := ⟨"S", "U", EventKind.join, 0⟩

/-- A leave event for the pair `("S", "U")` at instant `t`. -/
def evLeaveSU (t : Int) : AttendanceEvent := ⟨"S", "U", EventKind.leave, t⟩

/-- One open segment whose join is 1.5 seconds after the epoch. -/
def segHalf : Segment := ⟨1, "S", "U", 1500000, none, none⟩

/-- A store holding only `segHalf`. -/
def dbOneOpen : DBState := ⟨["S"], ["U"], [segHalf], 2⟩

/-- A store with two open segments for the same pair sharing one
`join_time` (ids 1 and 2). -/
def dbTiedOpen : DBState :=
  ⟨["S"], ["U"], [⟨1, "S", "U", 100, none, none⟩, ⟨2, "S", "U", 100, none, none⟩], 3⟩

/-- A store with two open segments for the same pair with distinct
`join_time`s (id 2 joined later). -/
def dbTwoOpen : DBState :=
  ⟨["S"], ["U"], [⟨1, "S", "U", 100, none, none⟩, ⟨2, "S", "U", 200, none, none⟩], 3⟩

/-- A store with one closed segment and a second closed one, used by the
no-open-segment witness. -/
def dbAllClosed : DBState :=
  ⟨["S"], ["U"], [⟨1, "S", "U", 0, some 5000000, some 5⟩], 2⟩

/-- A closed segment joining at 2024-01-01T00:00:00Z. -/
def segDayClosed : Segment :=
  ⟨1, "S", "U", 1704067200000000, some 1704070800000000, some 3600⟩

/-- A still-open segment joining inside 2024-01-01. -/
def segDayOpen : Segment := ⟨2, "S", "U", 1704070000000000, none, none⟩

/-- A store holding `segDayClosed` and `segDayOpen`. -/
def dbDaily : DBState := ⟨["S"], ["U"], [segDayClosed, segDayOpen], 3⟩

/-! ## Helper lemmas -/

theorem ensure_segments (db : DBState) (a b : String) :
    (ensure_entities db a b).segments = db.segments := rfl

theorem ensure_nextId (db : DBState) (a b : String) :
    (ensure_entities db a b).nextId = db.nextId := rfl

theorem openSegs_ensure (db : DBState) (a b sid uid : String) :
    openSegs (ensure_entities db a b) sid uid = openSegs db sid uid := rfl

theorem sid_mem_ensure (db : DBState) (sid uid : String) :
    sid ∈ (ensure_entities db sid uid).sessions := by
  simp only [ensure_entities]
  split
  · assumption
  · simp

theorem isOpenFor_closeRow {sid uid : String} {ts dur : Int} {tid : Nat} (x : Segment)
    (h : isOpenFor sid uid (closeRow ts dur tid x) = true) : isOpenFor sid uid x = true := by
  unfold closeRow at h
  split at h
  · simp [isOpenFor] at h
  · exact h

theorem filter_map_length_le {α : Type} (f : α → α) (p : α → Bool)
    (hf : ∀ x, p (f x) = true → p x = true) :
    ∀ l : List α, ((l.map f).filter p).length ≤ (l.filter p).length := by
  intro l
  induction l with
  | nil => simp
  | cons a l ih =>
      simp only [List.map_cons, List.filter_cons]
      by_cases hfa : p (f a) = true
      · rw [if_pos hfa, if_pos (hf a hfa)]
        simpa using ih
      · rw [if_neg hfa]
        by_cases hpa : p a = true
        · rw [if_pos hpa]
          exact Nat.le_succ_of_le ih
        · rw [if_neg hpa]
          exact ih

theorem selBetter_foldl_spec (l : List Segment) :
    ∀ (acc : Option Segment) (s : Segment), l.foldl selBetter acc = some s →
      (acc = some s ∨ s ∈ l) ∧ (∀ t ∈ l, t.join_time ≤ s.join_time) ∧
        (∀ b, acc = some b → b.join_time ≤ s.join_time) := by
  induction l with
  | nil =>
      intro acc s h
      simp only [List.foldl_nil] at h
      refine ⟨Or.inl h, by simp, fun b hb => ?_⟩
      rw [h] at hb
      cases hb
      exact le_refl _
  | cons x l ih =>
      intro acc s h
      simp only [List.foldl_cons] at h
      obtain ⟨h1, h2, h3⟩ := ih (selBetter acc x) s h
      match acc with
      | none =>
          refine ⟨?_, ?_, fun b hb => by cases hb⟩
          · rcases h1 with h1 | h1
            · cases h1
              exact Or.inr (List.mem_cons_self _ _)
            · exact Or.inr (List.mem_cons_of_mem _ h1)
          · intro t ht
            rcases List.mem_cons.mp ht with rfl | ht
            · exact h3 t rfl
            · exact h2 t ht
      | some a =>
          by_cases hlt : a.join_time < x.join_time
          · have hsel : selBetter (some a) x = some x := by simp [selBetter, hlt]
            rw [hsel] at h1 h3
            refine ⟨?_, ?_, fun b hb => ?_⟩
            · rcases h1 with h1 | h1
              · cases h1
                exact Or.inr (List.mem_cons_self _ _)
              · exact Or.inr (List.mem_cons_of_mem _ h1)
            · intro t ht
              rcases List.mem_cons.mp ht with rfl | ht
              · exact h3 t rfl
              · exact h2 t ht
            · cases hb
              exact le_trans (le_of_lt hlt) (h3 x rfl)
          · have hsel : selBetter (some a) x = some a := by simp [selBetter, hlt]
            rw [hsel] at h1 h3
            refine ⟨?_, ?_, fun b hb => ?_⟩
            · rcases h1 with h1 | h1
              · exact Or.inl h1
              · exact Or.inr (List.mem_cons_of_mem _ h1)
            · intro t ht
              rcases List.mem_cons.mp ht with rfl | ht
              · exact le_trans (not_lt.mp hlt) (h3 a rfl)
              · exact h2 t ht
            · exact h3 b hb

theorem selectOpen_mem_max {l : List Segment} {s : Segment} (h : selectOpen l = some s) :
    s ∈ l ∧ ∀ t ∈ l, t.join_time ≤ s.join_time := by
  obtain ⟨h1, h2, _⟩ := selBetter_foldl_spec l none s h
  rcases h1 with h1 | h1
  · cases h1
  · exact ⟨h1, h2⟩

theorem selectOpen_leaveSelects {db : DBState} {sid uid : String} {row : Segment}
    (h : selectOpen (openSegs db sid uid) = some row) : LeaveSelects db sid uid row := by
  obtain ⟨hmem, hmax⟩ := selectOpen_mem_max h
  obtain ⟨hseg, hopen⟩ := List.mem_filter.mp hmem
  refine ⟨hseg, hopen, fun t htseg htopen => ?_⟩
  exact hmax t (List.mem_filter.mpr ⟨htseg, htopen⟩)

theorem applyEvent_openInvariant (db : DBState) (e : AttendanceEvent)
    (hguard : e.kind = EventKind.join → (openSegs db e.session_id e.user_id).length = 0)
    (hinv : OpenInvariant db) : OpenInvariant (applyEvent db e).1 := by
  obtain ⟨sid, uid, k, t⟩ := e
  cases k with
  | join =>
      intro sid' uid'
      have hg : (openSegs db sid uid).length = 0 := hguard rfl
      have hrw : openSegs (applyEvent db ⟨sid, uid, EventKind.join, t⟩).1 sid' uid' =
          (db.segments.filter (isOpenFor sid' uid')) ++
            ([⟨db.nextId, sid, uid, t, none, none⟩].filter (isOpenFor sid' uid')) := by
        simp only [applyEvent, openSegs, ensure_segments, ensure_nextId, List.filter_append]
      rw [hrw, List.length_append]
      by_cases hnew : isOpenFor sid' uid' ⟨db.nextId, sid, uid, t, none, none⟩ = true
      · have hpair : sid = sid' ∧ uid = uid' := by
          simpa [isOpenFor] using hnew
        obtain ⟨rfl, rfl⟩ := hpair
        have h0 : (db.segments.filter (isOpenFor sid uid)).length = 0 := hg
        simp [h0, List.filter_cons, hnew]
      · have h1 : ([⟨db.nextId, sid, uid, t, none, none⟩].filter (isOpenFor sid' uid')) =
            ([] : List Segment) := by
          simp [List.filter_cons, hnew]
        rw [h1]
        simpa using hinv sid' uid'
  | leave =>
      intro sid' uid'
      cases hsel : selectOpen (openSegs db sid uid) with
      | none =>
          have hsel2 : selectOpen (db.segments.filter (isOpenFor sid uid)) = none := hsel
          have hrw : openSegs (applyEvent db ⟨sid, uid, EventKind.leave, t⟩).1 sid' uid' =
              openSegs db sid' uid' := by
            simp only [applyEvent, openSegs, ensure_segments, hsel2]
          rw [hrw]
          exact hinv sid' uid'
      | some row =>
          have hsel2 : selectOpen (db.segments.filter (isOpenFor sid uid)) = some row := hsel
          have hrw : openSegs (applyEvent db ⟨sid, uid, EventKind.leave, t⟩).1 sid' uid' =
              ((db.segments.map
                  (closeRow t (durationSecOf t row.join_time) row.id)).filter
                (isOpenFor sid' uid')) := by
            simp only [applyEvent, openSegs, ensure_segments, hsel2]
          rw [hrw]
          calc ((db.segments.map
                  (closeRow t (durationSecOf t row.join_time) row.id)).filter
                (isOpenFor sid' uid')).length
              ≤ (db.segments.filter (isOpenFor sid' uid')).length :=
                filter_map_length_le _ _ (fun x => isOpenFor_closeRow x) db.segments
            _ ≤ 1 := hinv sid' uid'

theorem guardedJoins_openInvariant (es : List AttendanceEvent) :
    ∀ db : DBState, OpenInvariant db → guardedJoins db es = true →
      ∀ n : Nat, OpenInvariant (applyEvents db (es.take n)) := by
  induction es with
  | nil =>
      intro db hinv _ n
      simpa [applyEvents] using hinv
  | cons e rest ih =>
      intro db hinv hg n
      have hg2 := hg
      unfold guardedJoins at hg2
      rw [Bool.and_eq_true] at hg2
      obtain ⟨hge, hgrest⟩ := hg2
      have hguard : e.kind = EventKind.join →
          (openSegs db e.session_id e.user_id).length = 0 := by
        intro hk
        rw [hk] at hge
        simpa using hge
      have hstep : OpenInvariant (applyEvent db e).1 :=
        applyEvent_openInvariant db e hguard hinv
      cases n with
      | zero => simpa [applyEvents] using hinv
      | succ n =>
          have : applyEvents db ((e :: rest).take (n + 1)) =
              applyEvents (applyEvent db e).1 (rest.take n) := by
            simp [applyEvents]
          rw [this]
          exact ih (applyEvent db e).1 hstep hgrest n

theorem openInvariant_init : OpenInvariant initState := by
  intro sid uid
  simp [openSegs, initState]

/-! ## Claim theorems -/

/-- C1 (counterexample): the open-segment invariant does not hold in all
reachable states: applying the same Join event twice from the empty store
leaves two open segments for the pair ("S", "U"). -/
theorem C1_counterexample :
    (openSegs (applyEvents initState [evJoinSU, evJoinSU]) "S" "U").length = 2 ∧
      ¬ OpenInvariant (applyEvents initState [evJoinSU, evJoinSU]) :=
  ⟨by decide, fun h => absurd (h "S" "U") (by decide)⟩

/-- C1 (amended): for every event sequence in which each Join event is
applied only while its `(session_id, user_id)` pair has no open segment,
at every point between event applications at most one attendance segment
per pair has `leave_time` unset. -/
theorem C1_guarded_open_invariant (es : List AttendanceEvent)
    (hg : guardedJoins initState es = true) (n : Nat) :
    OpenInvariant (applyEvents initState (es.take n)) :=
  guardedJoins_openInvariant es initState openInvariant_init hg n

theorem C1_witness :
    guardedJoins initState [evJoinSU, evLeaveSU 10, evJoinSU] = true ∧
      OpenInvariant (applyEvents initState ([evJoinSU, evLeaveSU 10, evJoinSU].take 2)) :=
  ⟨by decide, C1_guarded_open_invariant [evJoinSU, evLeaveSU 10, evJoinSU] (by decide) 2⟩

/-- C2: a Leave event applied when no open segment exists for its pair
returns the `no_open_segment` outcome and leaves the segment table
unchanged (no row inserted, updated or deleted). -/
theorem C2_leave_no_open (db : DBState) (e : AttendanceEvent)
    (hk : e.kind = EventKind.leave)
    (hopen : openSegs db e.session_id e.user_id = []) :
    (applyEvent db e).2 = Outcome.noOpenSegment ∧
      (applyEvent db e).1.segments = db.segments := by
  obtain ⟨sid, uid, k, t⟩ := e
  subst hk
  have hsel : selectOpen (openSegs db sid uid) = none := by
    have h0 : openSegs db sid uid = [] := hopen
    rw [h0]
    rfl
  constructor <;> simp only [applyEvent, openSegs_ensure, ensure_segments, hsel]

theorem C2_witness :
    openSegs dbAllClosed "S" "U" = [] ∧
      (applyEvent dbAllClosed (evLeaveSU 9000000)).2 = Outcome.noOpenSegment ∧
      (applyEvent dbAllClosed (evLeaveSU 9000000)).1.segments = dbAllClosed.segments :=
  ⟨by decide,
    (C2_leave_no_open dbAllClosed (evLeaveSU 9000000) rfl (by decide)).1,
    (C2_leave_no_open dbAllClosed (evLeaveSU 9000000) rfl (by decide)).2⟩

/-- C3 (counterexample): the stored duration is not the floor of
`event.at - join_time` in seconds.  With a join 1.5 seconds after the
epoch and a leave at the epoch, the code stores
`int(-1.5) = -1` while the floor is `-2`. -/
theorem C3_counterexample :
    (applyEvent dbOneOpen (evLeaveSU 0)).2 = Outcome.segmentClosed (-1) ∧
      Int.fdiv ((evLeaveSU 0).atTime - segHalf.join_time) 1000000 = -2 ∧
      ((-1 : Int) ≠ -2) :=
  ⟨by decide, by decide, by decide⟩

/-- C3 (amended): when a Leave event finds an open segment, the stored
`duration_sec` is `event.at - join_time` in seconds truncated toward zero
(Python `int(...)`), which agrees with the floor whenever the difference
is nonnegative; a negative difference is stored as-is, not clamped. -/
theorem C3_duration_truncated (db : DBState) (e : AttendanceEvent) (row : Segment)
    (hk : e.kind = EventKind.leave)
    (hsel : selectOpen (openSegs db e.session_id e.user_id) = some row) :
    (applyEvent db e).2 =
        Outcome.segmentClosed (Int.tdiv (e.atTime - row.join_time) 1000000) ∧
      (applyEvent db e).1.segments =
        db.segments.map
          (closeRow e.atTime (Int.tdiv (e.atTime - row.join_time) 1000000) row.id) ∧
      (0 ≤ e.atTime - row.join_time →
        Int.tdiv (e.atTime - row.join_time) 1000000 =
          Int.fdiv (e.atTime - row.join_time) 1000000) := by
  obtain ⟨sid, uid, k, t⟩ := e
  subst hk
  have hsel2 : selectOpen (openSegs db sid uid) = some row := hsel
  refine ⟨?_, ?_, fun hnn => ?_⟩
  · simp only [applyEvent, openSegs_ensure, ensure_segments, hsel2, durationSecOf]
  · simp only [applyEvent, openSegs_ensure, ensure_segments, hsel2, durationSecOf]
  · exact (Int.fdiv_eq_tdiv hnn (by norm_num)).symm

theorem C3_witness :
    selectOpen (openSegs dbOneOpen "S" "U") = some segHalf ∧
      (applyEvent dbOneOpen (evLeaveSU 0)).2 =
        Outcome.segmentClosed (Int.tdiv ((evLeaveSU 0).atTime - segHalf.join_time) 1000000) :=
  ⟨by decide, (C3_duration_truncated dbOneOpen (evLeaveSU 0) segHalf rfl (by decide)).1⟩

/-- C4 (counterexample): the query orders open segments by `join_time`
only, so ties are not broken by highest `id`: in a store with two open
segments sharing one `join_time` (ids 1 and 2), the row with id 1
satisfies everything the `ORDER BY join_time DESC LIMIT 1` fetch
guarantees — and the model's execution indeed closes id 1, not the
highest id 2. -/
theorem C4_counterexample :
    LeaveSelects dbTiedOpen "S" "U" ⟨1, "S", "U", 100, none, none⟩ ∧
      (⟨2, "S", "U", 100, none, none⟩ : Segment) ∈ dbTiedOpen.segments ∧
      isOpenFor "S" "U" ⟨2, "S", "U", 100, none, none⟩ = true ∧
      (1 : Nat) < 2 ∧
      (applyEvent dbTiedOpen (evLeaveSU 200)).1.segments =
        [⟨1, "S", "U", 100, some 200, some 0⟩, ⟨2, "S", "U", 100, none, none⟩] := by
  refine ⟨⟨by decide, by decide, ?_⟩, by decide, by decide, by decide, by decide⟩
  intro t ht hopen
  fin_cases ht <;> simp_all

/-- C4 (amended): a Leave event that finds an open segment closes an open
segment of its pair whose `join_time` is maximal among that pair's open
segments; among open segments sharing that maximal `join_time` the query
does not determine which one is closed. -/
theorem C4_close_targets_max_join (db : DBState) (e : AttendanceEvent) (row : Segment)
    (hk : e.kind = EventKind.leave)
    (hsel : selectOpen (openSegs db e.session_id e.user_id) = some row) :
    LeaveSelects db e.session_id e.user_id row ∧
      (applyEvent db e).1.segments =
        db.segments.map
          (closeRow e.atTime (durationSecOf e.atTime row.join_time) row.id) := by
  obtain ⟨sid, uid, k, t⟩ := e
  subst hk
  have hsel2 : selectOpen (openSegs db sid uid) = some row := hsel
  refine ⟨selectOpen_leaveSelects hsel, ?_⟩
  simp only [applyEvent, openSegs_ensure, ensure_segments, hsel2]

theorem C4_witness :
    LeaveSelects dbTwoOpen "S" "U" ⟨2, "S", "U", 200, none, none⟩ ∧
      (applyEvent dbTwoOpen (evLeaveSU 300)).1.segments =
        dbTwoOpen.segments.map
          (closeRow 300 (durationSecOf 300 200) 2) :=
  C4_close_targets_max_join dbTwoOpen (evLeaveSU 300) ⟨2, "S", "U", 200, none, none⟩
    rfl (by decide)

/-- C5: every Join event unconditionally appends a new open segment with
`join_time = event.at` and returns `segment_opened`; applying the same
Join twice with no intervening Leave adds two open segments for the pair,
not one. -/
theorem C5_join_unconditional (db : DBState) (e : AttendanceEvent)
    (hk : e.kind = EventKind.join) :
    (applyEvent db e).2 = Outcome.segmentOpened ∧
      (applyEvent db e).1.segments =
        db.segments ++ [⟨db.nextId, e.session_id, e.user_id, e.atTime, none, none⟩] ∧
      (openSegs (applyEvents db [e, e]) e.session_id e.user_id).length =
        (openSegs db e.session_id e.user_id).length + 2 := by
  obtain ⟨sid, uid, k, t⟩ := e
  subst hk
  refine ⟨rfl, rfl, ?_⟩
  have hopen : ∀ i : Nat, isOpenFor sid uid ⟨i, sid, uid, t, none, none⟩ = true := by
    intro i
    simp [isOpenFor]
  simp [applyEvents, applyEvent, openSegs, ensure_segments, ensure_nextId,
    List.filter_append, List.filter_cons, hopen]

theorem foldr_replaceZ_id (l : List Char) (h : 'Z' ∉ l) :
    l.foldr
      (fun c acc =>
        if c = 'Z' then '+' :: '0' :: '0' :: ':' :: '0' :: '0' :: acc else c :: acc)
      [] = l := by
  induction l with
  | nil => rfl
  | cons c l ih =>
      simp only [List.foldr_cons]
      have hc : c ≠ 'Z' := fun hcz => h (hcz ▸ List.mem_cons_self c l)
      rw [if_neg hc, ih (fun hm => h (List.mem_cons_of_mem c hm))]

theorem noZ_replaceZ (s : String) (h : 'Z' ∉ s.data) : replaceZ s = s := by
  obtain ⟨l⟩ := s
  unfold replaceZ
  rw [foldr_replaceZ_id l h]

/-- C6: the strings "2024-01-01T00:00:00Z" and "2024-01-01T00:00:00+00:00"
normalize to the identical UTC instant, and the number 1704067200000
(epoch milliseconds divided by 1000) normalizes to the same instant. -/
theorem C6_normalizer_agreement :
    parse_iso_timestamp "2024-01-01T00:00:00Z" = .ok 1704067200000000 ∧
      parse_iso_timestamp "2024-01-01T00:00:00+00:00" = .ok 1704067200000000 ∧
      ∀ now : Int, to_dt now (PyTsValue.pyNum 1704067200000) = .ok 1704067200000000 :=
  ⟨by rfl, by rfl, fun _ => rfl⟩

/-- C7: on the strict path, a parseable timestamp string with no offset
and no `Z` designator is rejected with the timezone `ValueError` rather
than silently assumed UTC, while a string carrying an offset (or a `Z`,
which `replaceZ` turns into `+00:00`) is accepted and normalized to the
UTC instant. -/
theorem C7_strict_requires_timezone (s : String) (dt : PyDatetime) :
    ('Z' ∉ s.data → fromisoformat s = some dt → dt.offsetMinutes = none →
        parse_iso_timestamp s = .error TsError.noTimezone) ∧
      (∀ off : Int, fromisoformat (replaceZ s) = some dt → dt.offsetMinutes = some off →
        parse_iso_timestamp s = .ok (toEpochMicros dt - off * 60000000)) := by
  constructor
  · intro hz hp ho
    unfold parse_iso_timestamp
    rw [noZ_replaceZ s hz, hp]
    simp [ho]
  · intro off hp ho
    unfold parse_iso_timestamp
    rw [hp]
    simp [ho]

theorem C7_witness :
    parse_iso_timestamp "2024-01-01T00:00:00" = .error TsError.noTimezone ∧
      parse_iso_timestamp "2024-01-01T00:00:00+05:30" = .ok 1704047400000000 := by
  constructor
  · exact (C7_strict_requires_timezone "2024-01-01T00:00:00"
      ⟨2024, 1, 1, 0, 0, 0, 0, none⟩).1 (by decide) (by decide) rfl
  · have h := (C7_strict_requires_timezone "2024-01-01T00:00:00+05:30"
        ⟨2024, 1, 1, 0, 0, 0, 0, some 330⟩).2 330 (by decide) rfl
    rw [h]
    rfl

/-- C8: the normalized `user_id` is the first non-empty value among the
participant's email, user_id and id, and the literal "unknown" otherwise;
the extraction is a total function, so missing fields never reject the
event. -/
theorem C8_user_id_first_nonempty : ∀ p : Participant, extract_user_id p = specUserId p := by
  intro p
  obtain ⟨e, u, i⟩ := p
  cases e <;> cases u <;> cases i <;>
      simp [extract_user_id, specUserId, pyOrStr] <;>
    split_ifs <;> simp_all

/-- C9: for a valid day parameter, the daily summary aggregates exactly
the segments whose `join_time` lies in the UTC window
[D 00:00:00, D 23:59:59] and whose `leave_time` is set; open segments are
excluded even when their `join_time` falls within the day. -/
theorem C9_daily_window_closed_only (db : DBState) (day : String) (y m d : Nat)
    (hday : date_fromisoformat day = some (y, m, d)) :
    daily_summary_rows db day = some (db.segments.filter (dailySegmentFilter y m d)) ∧
      ∀ s : Segment,
        s ∈ db.segments.filter (dailySegmentFilter y m d) ↔
          s ∈ db.segments ∧ dayStartMicros y m d ≤ s.join_time ∧
            s.join_time ≤ dayStartMicros y m d + 86399000000 ∧ s.leave_time ≠ none := by
  refine ⟨by simp [daily_summary_rows, hday], fun s => ?_⟩
  rw [List.mem_filter]
  simp [dailySegmentFilter, and_assoc]

theorem C9_witness :
    daily_summary_rows dbDaily "2024-01-01" =
        some (dbDaily.segments.filter (dailySegmentFilter 2024 1 1)) ∧
      segDayClosed ∈ dbDaily.segments.filter (dailySegmentFilter 2024 1 1) ∧
      segDayOpen ∉ dbDaily.segments.filter (dailySegmentFilter 2024 1 1) := by
  have h := C9_daily_window_closed_only dbDaily "2024-01-01" 2024 1 1 (by decide)
  refine ⟨h.1, (h.2 segDayClosed).mpr ⟨by decide, by decide, by decide, by decide⟩,
    fun hm => ?_⟩
  have h2 := (h.2 segDayOpen).mp hm
  exact absurd h2.2.2.2 (by decide)

theorem applyEvent_sessions (db : DBState) (e : AttendanceEvent) :
    (applyEvent db e).1.sessions = (ensure_entities db e.session_id e.user_id).sessions := by
  obtain ⟨sid, uid, k, t⟩ := e
  cases k with
  | join => rfl
  | leave =>
      cases hsel : selectOpen (openSegs (ensure_entities db sid uid) sid uid) with
      | none => simp only [applyEvent, hsel]
      | some row => simp only [applyEvent, hsel]

/-- C10: a join or leave payload whose object carries neither `uuid` nor
`id` normalizes to the four-character session id "None" (the string form
of Python `None`), a session row with that identifier is created on both
paths, and the event is still processed rather than rejected: a join
yields `segment_opened` and a leave yields one of the two normal leave
outcomes. -/
theorem C10_missing_object_ids (db : DBState) (kind : EventKind) (o : ZoomObject)
    (p : Participant) (ts : Int)
    (hu : o.uuid = none) (hi : o.meetingId = none) :
    extract_session_id o = "None" ∧ (extract_session_id o).length = 4 ∧
      "None" ∈ (process_payload db kind o p ts).1.sessions ∧
      (kind = EventKind.join →
        (process_payload db kind o p ts).2 = Outcome.segmentOpened) ∧
      (kind = EventKind.leave →
        (process_payload db kind o p ts).2 = Outcome.noOpenSegment ∨
          ∃ dur : Int, (process_payload db kind o p ts).2 = Outcome.segmentClosed dur) := by
  have h1 : extract_session_id o = "None" := by
    simp [extract_session_id, pyOrStr, pyStrOfOptInt, hu, hi]
  refine ⟨h1, by rw [h1]; decide, ?_, fun hk => ?_, fun hk => ?_⟩
  · unfold process_payload
    rw [applyEvent_sessions, h1]
    exact sid_mem_ensure db "None" (extract_user_id p)
  · subst hk
    rfl
  · subst hk
    unfold process_payload
    rw [h1]
    cases hsel : selectOpen
        (openSegs (ensure_entities db "None" (extract_user_id p)) "None"
          (extract_user_id p)) with
    | none =>
        left
        simp only [applyEvent, hsel]
    | some row =>
        right
        exact ⟨durationSecOf ts row.join_time, by simp only [applyEvent, hsel]⟩

theorem C10_witness :
    extract_session_id ⟨none, none⟩ = "None" ∧
      "None" ∈
        (process_payload initState EventKind.join ⟨none, none⟩ ⟨none, none, none⟩ 0).1.sessions ∧
      (process_payload initState EventKind.join ⟨none, none⟩ ⟨none, none, none⟩ 0).2 =
        Outcome.segmentOpened ∧
      "None" ∈
        (process_payload initState EventKind.leave ⟨none, none⟩ ⟨none, none, none⟩ 0).1.sessions ∧
      ((process_payload initState EventKind.leave ⟨none, none⟩ ⟨none, none, none⟩ 0).2 =
          Outcome.noOpenSegment ∨
        ∃ dur : Int,
          (process_payload initState EventKind.leave ⟨none, none⟩ ⟨none, none, none⟩ 0).2 =
            Outcome.segmentClosed dur) := by
  have hj := C10_missing_object_ids initState EventKind.join ⟨none, none⟩
    ⟨none, none, none⟩ 0 rfl rfl
  have hl := C10_missing_object_ids initState EventKind.leave ⟨none, none⟩
    ⟨none, none, none⟩ 0 rfl rfl
  exact ⟨hj.1, hj.2.2.1, hj.2.2.2.1 rfl, hl.2.2.1, hl.2.2.2.2 rfl⟩

theorem C5_witness :
    (applyEvent initState evJoinSU).2 = Outcome.segmentOpened ∧
      (applyEvent initState evJoinSU).1.segments =
        initState.segments ++ [⟨initState.nextId, "S", "U", 0, none, none⟩] ∧
      (openSegs (applyEvents initState [evJoinSU, evJoinSU]) "S" "U").length =
        (openSegs initState "S" "U").length + 2 :=
  C5_join_unconditional initState evJoinSU rfl

end ZoomAttendance
